import Mathlib

/-!
Shallow embedding of the terminal progress display engine (`Progress` and
`Progress.Item`) and of the job queues (`SequentialJobQueue`,
`ConcurrentJobQueue`) of `ghcloneall.py`, together with theorems checking
the natural-language specification of the program against this embedding.

Output written to the stream is modelled as a `String` accumulated by each
operation; terminal escape sequences are the exact byte strings the source
writes.  `Progress.Item` objects are modelled by their index into
`Progress.items`: every state-mutating Item method takes the owning
`Progress` state and the item's index and returns the new state together
with the output it produced.  Methods whose Python counterparts can raise
an `AssertionError` (a hard failure) return `Option`, with `none` for the
assertion failure (the Python state is unchanged in that case, since the
assert precedes every mutation).
-/

/-- Escape sequence for moving the cursor up, from `Progress.t_cursor_up`
(`'\033[%dA' % n` in the source). -/
def t_cursor_up (n : Nat) : String := "\x1b[" ++ toString n ++ "A"

/-- Escape sequence for moving the cursor down (`'\033[%dB' % n`). -/
def t_cursor_down (n : Nat) : String := "\x1b[" ++ toString n ++ "B"

/-- Escape sequence for inserting blank rows (`'\033[%dL' % n`). -/
def t_insert_lines (n : Nat) : String := "\x1b[" ++ toString n ++ "L"

/-- Escape sequence for deleting rows (`'\033[%dM' % n`). -/
def t_delete_lines (n : Nat) : String := "\x1b[" ++ toString n ++ "M"

/-- Attribute reset escape, from `Progress.t_reset`. -/
def t_reset : String := "\x1b[m"

/-- Red color escape, from `Progress.t_red`. -/
def t_red : String := "\x1b[31m"

/-- Green color escape, from `Progress.t_green`. -/
def t_green : String := "\x1b[32m"

/-- Brown color escape, from `Progress.t_brown`. -/
def t_brown : String := "\x1b[33m"

/-- One detail line attached to an item: the `(indent, color, line, reset)`
tuples stored in `Progress.Item.extra_info_lines`. -/
structure InfoLine where
  indent : String
  color : String
  line : String
  reset : String
deriving DecidableEq, Repr

/-- State of one `Progress.Item`: label text, creation-order index, attached
detail lines, current color/reset escapes, and the `updated`, `failed` and
`hidden` flags, exactly the attributes set by `Progress.Item.__init__`. -/
structure Item where
  msg : String
  idx : Nat
  extra_info_lines : List InfoLine
  color : String
  reset : String
  updated : Bool
  failed : Bool
  hidden : Bool
deriving DecidableEq, Repr

/-- State of a `Progress` display: the last status-line text (kept so it can
be erased), the running counter and expected total, the ordered list of
items, and the `finished` flag, as set by `Progress.__init__`. -/
structure Progress where
  last_status : String
  cur : Nat
  total : Nat
  items : List Item
  finished : Bool
deriving DecidableEq, Repr

/-- Fresh `Progress` state as built by `Progress.__init__`. -/
def Progress.init : Progress := ⟨"", 0, 0, [], false⟩

/-- The `Progress.Item.height` property:
`(0 if hidden else 1) + len(extra_info_lines)`. -/
def Item.height (it : Item) : Nat :=
  (if it.hidden then 0 else 1) + it.extra_info_lines.length

/-- The sum `sum(i.height for i in self.items[k:])` used by the cursor
movement arithmetic. -/
def sumHeightsFrom (p : Progress) (k : Nat) : Nat :=
  ((p.items.drop k).map Item.height).sum

/-- Total printed line count: the sum of the heights of all items. -/
def totalHeights (p : Progress) : Nat :=
  (p.items.map Item.height).sum

/-- Python `str.rstrip()`: drop trailing whitespace characters. -/
def pyRstrip (s : String) : String :=
  String.mk (s.data.reverse.dropWhile Char.isWhitespace).reverse

/-- The `Progress.clear` method: erase the previously printed status text by
overwriting `len(last_status.rstrip())` characters with spaces.  No output
when finished or when there is no status text. -/
def Progress.clear (p : Progress) : Progress × String :=
  if p.finished then (p, "")
  else if p.last_status = "" then (p, "")
  else ({ p with last_status := "" },
        "\r" ++ String.mk (List.replicate (pyRstrip p.last_status).length ' ') ++ "\r")

/-- The `Progress.status` method: clear, then (for a non-empty message)
write `'\r' + message + '\r'` and remember the message. -/
def Progress.status (p : Progress) (message : String) : Progress × String :=
  if p.finished then (p, "")
  else
    let pc := p.clear
    if message = "" then pc
    else ({ pc.1 with last_status := message }, pc.2 ++ "\r" ++ message ++ "\r")

/-- The `Progress.finish` method: clear the status, set `finished`, and (for
a non-empty message) print the message followed by a newline.  Note the
source does not test the `finished` flag here. -/
def Progress.finish (p : Progress) (msg : String) : Progress × String :=
  let pc := p.clear
  let p1 := { pc.1 with finished := true }
  if msg = "" then (p1, pc.2) else (p1, pc.2 ++ msg ++ "\n")

/-- The class attribute `Progress.bar_width`. -/
def bar_width : Nat := 20

/-- The class attribute `Progress.full_char`. -/
def full_char : Char := '#'

/-- The class attribute `Progress.empty_char`. -/
def empty_char : Char := '.'

/-- The `Progress.scale` method: `range * cur // max(total, 1)`. -/
def Progress.scale (r cur total : Nat) : Nat := r * cur / max total 1

/-- Python `str.ljust`: pad on the right with the fill character up to the
requested width (no-op when already at least that wide). -/
def ljust (s : String) (w : Nat) (c : Char) : String :=
  s ++ String.mk (List.replicate (w - s.length) c)

/-- The `Progress.bar` method: `full_char` repeated
`min(scale(bar_width, cur, total), bar_width)` times, left-justified to
`bar_width` with `empty_char`. -/
def Progress.bar (cur total : Nat) : String :=
  ljust (String.mk (List.replicate (min (Progress.scale bar_width cur total) bar_width) full_char))
    bar_width empty_char

/-- The `Progress.format_progress_bar` method, instantiating the class
attribute `progress_bar_format` which reads `[{bar}] {cur}/{total}` with
braces around each placeholder name. -/
def Progress.format_progress_bar (cur total : Nat) : String :=
  "[" ++ Progress.bar cur total ++ "] " ++ toString cur ++ "/" ++ toString total

/-- The `Progress.progress` method: show the bar as the status line. -/
def Progress.progress (p : Progress) : Progress × String :=
  p.status (Progress.format_progress_bar p.cur p.total)

/-- The `Progress.set_limit` method: store the expected total and redraw the
progress bar. -/
def Progress.set_limit (p : Progress) (total : Nat) : Progress × String :=
  Progress.progress { p with total := total }

/-- The `Progress.draw_item` method: write prefix, color, label, reset and
suffix, unless the display is finished or the item is hidden.  The method
does not mutate any state, so only the output is returned. -/
def Progress.draw_item (p : Progress) (it : Item) (pre suf : String) : String :=
  if p.finished then ""
  else if it.hidden then ""
  else pre ++ it.color ++ it.msg ++ it.reset ++ suf

/-- The `Progress.item` method: append a fresh item (index = current list
length, brown color, no flags), draw it when the label is non-empty,
increment the counter, and redraw the progress bar.  The handle returned to
the Python caller is the fresh item, i.e. index `p.items.length` here. -/
def Progress.item (p : Progress) (msg : String) : Progress × String :=
  let it : Item := ⟨msg, p.items.length, [], t_brown, t_reset, false, false, false⟩
  let p1 := { p with items := p.items ++ [it] }
  let r1 : Progress × String :=
    if msg = "" then (p1, "")
    else
      let pc := p1.clear
      (pc.1, pc.2 ++ Progress.draw_item pc.1 it "" "\n")
  let p2 := { r1.1 with cur := r1.1.cur + 1 }
  let r2 := p2.progress
  (r2.1, r1.2 ++ r2.2)

/-- The `Progress.update_item` method: redraw the row of the item at index
`i` in place, moving the cursor up over the heights of all items from the
item's index on and back down afterwards.  It mutates nothing. -/
def Progress.update_item (p : Progress) (i : Nat) : String :=
  match p.items[i]? with
  | none => ""
  | some it =>
    let n := sumHeightsFrom p it.idx
    Progress.draw_item p it (if n = 0 then "" else "\r" ++ t_cursor_up n)
      (if n = 0 then "" else "\r" ++ t_cursor_down n)

/-- The `Progress.delete_item` method: no-op when finished or when the item
is already hidden; otherwise mark the item hidden, then emit cursor-up by
(rows below the removed row) + 1, delete one row, and cursor-down over the
remaining rows below (the cursor-down is omitted when that count is 0). -/
def Progress.delete_item (p : Progress) (i : Nat) : Progress × String :=
  if p.finished then (p, "")
  else
    match p.items[i]? with
    | none => (p, "")
    | some it =>
      if it.hidden then (p, "")
      else
        let it1 := { it with hidden := true }
        let p1 := { p with items := p.items.set i it1 }
        let n := sumHeightsFrom p1 it1.idx
        (p1, t_cursor_up (n + 1) ++ t_delete_lines 1
          ++ (if n = 0 then "" else t_cursor_down n))

/-- Rendering of one stored detail line as written both by
`Progress.extra_info` and by its trailing redraw loop:
`indent + color + line + reset + '\n'`. -/
def renderInfoLine (l : InfoLine) : String :=
  l.indent ++ l.color ++ l.line ++ l.reset ++ "\n"

/-- The `Progress.extra_info` method: no output when finished; asserts the
item is not hidden (`none` models the assertion failure); appends the lines
to the item's detail list; moves the cursor up over the heights of all items
after the item; inserts that many rows and writes the new lines; then
redraws every item after this one together with its detail lines, and
finally redraws the progress bar. -/
def Progress.extra_info (p : Progress) (i : Nat) (lines : List InfoLine) :
    Option (Progress × String) :=
  if p.finished then some (p, "")
  else
    match p.items[i]? with
    | none => none
    | some it =>
      if it.hidden then none
      else
        let it1 := { it with extra_info_lines := it.extra_info_lines ++ lines }
        let p1 := { p with items := p.items.set i it1 }
        let n := sumHeightsFrom p1 (it1.idx + 1)
        let o1 := (if n = 0 then "" else t_cursor_up n)
          ++ t_insert_lines lines.length
          ++ String.join (lines.map renderInfoLine)
        let o2 := String.join ((p1.items.drop (it1.idx + 1)).map
          (fun j => Progress.draw_item p1 j "" "\n"
            ++ String.join (j.extra_info_lines.map renderInfoLine)))
        let r := p1.progress
        some (r.1, o1 ++ o2 ++ r.2)

/-- The `Progress.Item.update` method: set the `updated` flag and restore
the reset escape; latch `failed` with red on a failed update, otherwise set
green unless already failed; append the suffix to the label; redraw the row
in place. -/
def Item.update (p : Progress) (i : Nat) (msg : String) (failed : Bool) :
    Progress × String :=
  match p.items[i]? with
  | none => (p, "")
  | some it =>
    let it1 := { it with updated := true, reset := t_reset }
    let it2 :=
      if failed then { it1 with failed := true, color := t_red }
      else if it1.failed then it1
      else { it1 with color := t_green }
    let it3 := { it2 with msg := it2.msg ++ msg }
    let p1 := { p with items := p.items.set i it3 }
    (p1, Progress.update_item p1 i)

/-- The `Progress.Item.hide` method: asserts the item has no detail lines
(`none` models the assertion failure, which leaves the state untouched),
then delegates to `Progress.delete_item`. -/
def Item.hide (p : Progress) (i : Nat) : Option (Progress × String) :=
  match p.items[i]? with
  | none => none
  | some it =>
    if it.extra_info_lines = [] then some (Progress.delete_item p i) else none

/-- The `Progress.Item.finished` method: strip the color when the item was
never updated and never failed, then either hide the item or redraw it. -/
def Item.finishedCall (p : Progress) (i : Nat) (hide : Bool) :
    Option (Progress × String) :=
  match p.items[i]? with
  | none => some (p, "")
  | some it =>
    let it1 := if !it.updated && !it.failed then { it with color := "", reset := "" } else it
    let p1 := { p with items := p.items.set i it1 }
    if hide then Item.hide p1 i
    else some (p1, Progress.update_item p1 i)

/-- Python `str.splitlines` restricted to the `'\n'`, `'\r\n'` and `'\r'`
line boundaries: no trailing empty string for a trailing newline, and the
empty string yields no lines. -/
def splitlinesAux : List Char → List Char → List String
  | [], acc => if acc.isEmpty then [] else [String.mk acc.reverse]
  | '\r' :: '\n' :: rest, acc => String.mk acc.reverse :: splitlinesAux rest []
  | '\n' :: rest, acc => String.mk acc.reverse :: splitlinesAux rest []
  | '\r' :: rest, acc => String.mk acc.reverse :: splitlinesAux rest []
  | c :: rest, acc => splitlinesAux rest (c :: acc)

/-- Python `msg.splitlines()` on a whole string. -/
def pySplitlines (s : String) : List String := splitlinesAux s.data []

/-- The list comprehension in `Progress.Item.extra_info` building one
`(indent, color, line, reset)` tuple per line of the message. -/
def mkInfoLines (msg color reset indent : String) : List InfoLine :=
  (pySplitlines msg).map (fun l => InfoLine.mk indent color l reset)

/-- The `Progress.Item.extra_info` method: split the message into lines,
tag each with the indent, color and reset, and hand them to
`Progress.extra_info`; a message with no lines returns immediately. -/
def Item.extra_info (p : Progress) (i : Nat) (msg color reset indent : String) :
    Option (Progress × String) :=
  let lines := mkInfoLines msg color reset indent
  if lines = [] then some (p, "")
  else Progress.extra_info p i lines

/-- The `Progress.Item.error_info` method: `extra_info` in red, with the
default four-space indent. -/
def Item.error_info (p : Progress) (i : Nat) (msg : String) :
    Option (Progress × String) :=
  Item.extra_info p i msg t_red t_reset "    "

/-- Exception kinds relevant to the program: `KeyboardInterrupt`, the
script's own `Error` class, and everything else. -/
inductive ExcKind where
  | keyboardInterrupt
  | scriptError
  | other
deriving DecidableEq, Repr

/-- The `Progress.__exit__` method: clear the status line; on a
`KeyboardInterrupt` also `finish('Interrupted')`.  The third component is
whether the exception is suppressed: the Python method returns `None`, so it
is always `false`. -/
def Progress.exitCM (p : Progress) (exc : Option ExcKind) : Progress × String × Bool :=
  let pc := p.clear
  match exc with
  | some ExcKind.keyboardInterrupt =>
    let pf := Progress.finish pc.1 "Interrupted"
    (pf.1, pc.2 ++ pf.2, false)
  | _ => (pc.1, pc.2, false)

/-- Outcome of the top-level `main` function wrapping `_main`. -/
inductive MainOutcome where
  | normal
  | exitWithError
  | propagated (e : ExcKind)
deriving DecidableEq, Repr

/-- The `main` function's exception handling: `Error` exits the process with
a message, `KeyboardInterrupt` is passed over silently, anything else
propagates out of the program. -/
def mainRun (exc : Option ExcKind) : MainOutcome :=
  match exc with
  | none => MainOutcome.normal
  | some ExcKind.scriptError => MainOutcome.exitWithError
  | some ExcKind.keyboardInterrupt => MainOutcome.normal
  | some ExcKind.other => MainOutcome.propagated ExcKind.other

/-- The `with Progress() as progress:` block boundary in `_main`: run the
`__exit__` method and, since it never suppresses, re-raise whatever
exception the body raised. -/
def runWithProgress (p : Progress) (exc : Option ExcKind) :
    Progress × String × Option ExcKind :=
  let r := Progress.exitCM p exc
  (r.1, r.2.1, if r.2.2 then none else exc)

/-- Full render of one item as produced by the trailing redraw loop of
`Progress.extra_info`: the item's own row followed by its detail lines. -/
def renderItemWithInfo (p : Progress) (it : Item) : String :=
  Progress.draw_item p it "" "\n" ++ String.join (it.extra_info_lines.map renderInfoLine)

/-- Redraw of every item positioned after index `i`, each with its own
detail lines. -/
def redrawItemsAfter (p : Progress) (i : Nat) : String :=
  String.join ((p.items.drop (i + 1)).map (renderItemWithInfo p))

/-- The waiting loop of `ConcurrentJobQueue.add`: while the handle set is at
or above capacity, consume one `futures.wait(..., FIRST_COMPLETED)` result
and discard the completed handles from the set.  The list argument is the
oracle of wait results; `none` means the oracle was exhausted while the
caller was still blocked. -/
def addLoop (L : Nat) : List (Finset Nat) → Finset Nat → Option (Finset Nat)
  | waits, jobs =>
    if jobs.card < L then some jobs
    else
      match waits with
      | [] => none
      | d :: rest => addLoop L rest (jobs \ d)

/-- The `ConcurrentJobQueue.add` method without interruption: run the
waiting loop, then submit the task and add its fresh future handle. -/
def ConcurrentJobQueue.add (L : Nat) (jobs : Finset Nat) (fresh : Nat)
    (waits : List (Finset Nat)) : Option (Finset Nat) :=
  (addLoop L waits jobs).map (fun js => insert fresh js)

/-- One event observed at a blocking point of `ConcurrentJobQueue.add`:
either a `futures.wait` call returns with a set of completed handles, or a
`KeyboardInterrupt` arrives. -/
inductive AddEvent where
  | completes (done : Finset Nat)
  | interrupt
deriving DecidableEq

/-- How the waiting loop of `ConcurrentJobQueue.add` ends: the capacity
check passes and the task is submitted, or a `KeyboardInterrupt` arrives
with the given handles still in flight. -/
inductive LoopExit where
  | submitted (jobs : Finset Nat)
  | interrupted (jobs : Finset Nat)
deriving DecidableEq

/-- The waiting loop of `ConcurrentJobQueue.add` with interruption events:
like `addLoop`, but a `KeyboardInterrupt` event ends the loop with the
current in-flight handle set. -/
def addEvLoop (L : Nat) : List AddEvent → Finset Nat → Option LoopExit
  | events, jobs =>
    if jobs.card < L then some (LoopExit.submitted jobs)
    else
      match events with
      | [] => none
      | AddEvent.interrupt :: _ => some (LoopExit.interrupted jobs)
      | AddEvent.completes d :: rest => addEvLoop L rest (jobs \ d)

/-- The `RepoTask.aborted` method: update the task's progress item with the
label `' (aborted)'` and `failed=True`, then mark the item finished.  The
`finished_callback` only adjusts counters and is not modelled. -/
def RepoTask.aborted (p : Progress) (i : Nat) : Progress × String :=
  let r1 := Item.update p i " (aborted)" true
  match Item.finishedCall r1.1 i false with
  | some r2 => (r2.1, r1.2 ++ r2.2)
  | none => r1

/-- The label appended by `RepoTask.check_call` when the subprocess exits
with a non-zero code: ordinary task failure. -/
def check_call_failed_label : String := " (failed)"

/-- The whole `ConcurrentJobQueue.add` body including its
`except KeyboardInterrupt` clause: on interruption, call `task.aborted()`
and re-raise (the final `Bool` is whether the interruption propagates to
the caller); otherwise submit the task and add its handle. -/
def ConcurrentJobQueue.addTask (L : Nat) (jobs : Finset Nat) (fresh : Nat)
    (events : List AddEvent) (p : Progress) (i : Nat) :
    Option (Finset Nat × Progress × String × Bool) :=
  match addEvLoop L events jobs with
  | none => none
  | some (LoopExit.submitted js) => some (insert fresh js, p, "", false)
  | some (LoopExit.interrupted js) =>
    let r := RepoTask.aborted p i
    some (js, r.1, r.2, true)

/-- Spec-side formula for the number of filled bar characters:
`filled = min(width, width*current // max(total,1))`. -/
def specFilledChars (width cur total : Nat) : Nat :=
  min width (width * cur / max total 1)

/-- Spec-side bar: the fill character repeated `specFilledChars` times,
left-justified to the width with the empty character. -/
def specBar (width cur total : Nat) (fill empty : Char) : String :=
  ljust (String.mk (List.replicate (specFilledChars width cur total) fill)) width empty

/-- State reached by `Progress.extra_info` before its rendering: the lines
appended to the detail list of the item at index `i`. -/
def extraInfoState (p : Progress) (i : Nat) (it : Item) (lines : List InfoLine) : Progress :=
  { p with items := p.items.set i { it with extra_info_lines := it.extra_info_lines ++ lines } }

/-- Concrete display used by several witnesses: one item labelled `boo`. -/
def pOneItem : Progress := (Progress.init.item "boo").1

/-- Concrete display with the single `boo` item hidden. -/
def pHidden : Progress := ((Item.hide pOneItem 0).getD (Progress.init, "")).1

/-- Concrete finished display with no items. -/
def pFin : Progress := (Progress.init.finish "done").1

/-- Concrete finished display holding one item. -/
def pFinItem : Progress := (pOneItem.finish "done").1

lemma clear_finished (p : Progress) (hf : p.finished = true) : p.clear = (p, "") := by
  simp [Progress.clear, hf]

lemma status_snd_finished (p : Progress) (hf : p.finished = true) (m : String) :
    (p.status m).2 = "" := by
  simp [Progress.status, hf]

lemma draw_item_finished (p : Progress) (hf : p.finished = true) (it : Item)
    (pre suf : String) : Progress.draw_item p it pre suf = "" := by
  simp [Progress.draw_item, hf]

lemma update_item_finished (p : Progress) (hf : p.finished = true) (i : Nat) :
    Progress.update_item p i = "" := by
  unfold Progress.update_item
  cases p.items[i]? with
  | none => rfl
  | some it => simp [draw_item_finished p hf]

set_option maxRecDepth 4000 in
/-- C5: the progress bar is a pure function of `(current, total)` matching
the spec formula `min(width, width*current // max(total,1))` with floor
division, and `set_limit(5)` followed by one `item()` call renders the
status line `[####................] 1/5` (erasing the previous status text
first). -/
theorem progress_bar_pure_function_and_sample (cur total : Nat) :
    Progress.bar cur total = specBar bar_width cur total full_char empty_char ∧
    Progress.format_progress_bar 1 5 = "[####................] 1/5" ∧
    ((Progress.init.set_limit 5).1.item "").1.last_status = "[####................] 1/5" ∧
    ((Progress.init.set_limit 5).1.item "").2
      = "\r                          \r\r[####................] 1/5\r" := by
  refine ⟨?_, rfl, rfl, rfl⟩
  simp [Progress.bar, specBar, specFilledChars, Progress.scale, Nat.min_comm]

/-- C10: the `Progress.delete_item` operation on an already hidden item
returns immediately with no output and no state change. -/
theorem delete_item_noop_on_hidden (p : Progress) (i : Nat) (it : Item)
    (h : p.items[i]? = some it) (hh : it.hidden = true) :
    Progress.delete_item p i = (p, "") := by
  by_cases hf : p.finished
  · simp [Progress.delete_item, hf]
  · simp [Progress.delete_item, hf, h, hh]

/-- Witness for `delete_item_noop_on_hidden` at the concrete hidden item. -/
theorem delete_item_noop_on_hidden_witness :
    pHidden.items[0]? = some ⟨"boo", 0, [], t_brown, t_reset, false, false, true⟩ ∧
    Progress.delete_item pHidden 0 = (pHidden, "") := by
  refine ⟨by decide, delete_item_noop_on_hidden pHidden 0
    ⟨"boo", 0, [], t_brown, t_reset, false, false, true⟩ (by decide) rfl⟩

lemma clear_clear_snd (p : Progress) : (p.clear.1).clear.2 = "" := by
  unfold Progress.clear
  by_cases hf : p.finished
  · simp [hf]
  · by_cases hl : p.last_status = ""
    · simp [hf, hl]
    · simp [hf, hl]

/-- C9 counterexample: the `Progress.__exit__` boundary does not swallow a
`KeyboardInterrupt` — the method returns `None` (modelled as the suppress
flag being `false`), so the interruption propagates out of the
`with Progress()` block instead of being swallowed there. -/
theorem exit_does_not_swallow_interrupt_cex :
    (Progress.exitCM Progress.init (some ExcKind.keyboardInterrupt)).2.2 = false ∧
    (runWithProgress Progress.init (some ExcKind.keyboardInterrupt)).2.2
      = some ExcKind.keyboardInterrupt :=
  ⟨rfl, rfl⟩

/-- C9 amended: on a `KeyboardInterrupt` the `Progress.__exit__` boundary
clears the status line and renders a final `Interrupted` line, but never
suppresses the exception; every exception type (the interrupt included)
propagates through the boundary, and the interrupt is swallowed only by the
top-level `main` handler, which also turns the script's `Error` into a
process exit while any other exception propagates out of the program. -/
theorem exit_renders_interrupted_but_propagates (p : Progress) (e : Option ExcKind) :
    (Progress.exitCM p e).2.2 = false ∧
    (runWithProgress p e).2.2 = e ∧
    (Progress.exitCM p (some ExcKind.keyboardInterrupt)).2.1
      = p.clear.2 ++ "Interrupted\n" ∧
    (Progress.exitCM p (some ExcKind.scriptError)).2.1 = p.clear.2 ∧
    (Progress.exitCM p (some ExcKind.other)).2.1 = p.clear.2 ∧
    (Progress.exitCM p none).2.1 = p.clear.2 ∧
    mainRun (some ExcKind.keyboardInterrupt) = MainOutcome.normal ∧
    mainRun (some ExcKind.other) = MainOutcome.propagated ExcKind.other := by
  have hsup : ∀ e' : Option ExcKind, (Progress.exitCM p e').2.2 = false := by
    intro e'
    rcases e' with _ | k
    · rfl
    · cases k <;> rfl
  refine ⟨hsup e, ?_, ?_, rfl, rfl, rfl, rfl, rfl⟩
  · simp [runWithProgress, hsup e]
  · simp [Progress.exitCM, Progress.finish, clear_clear_snd]

/-- C2 counterexample: `finish` does not test the `finished` flag, so a
second call to `finish` with a non-empty message prints that message again
even though the display is already finished. -/
theorem finish_after_finish_prints_again_cex :
    pFin.finished = true ∧ (Progress.finish pFin "bye").2 = "bye\n" :=
  ⟨rfl, rfl⟩

/-- C2 amended: after `finish`, every later call to any Display or Item
method other than `finish` itself produces zero additional output (the
misuse guard of `hide` on an item with detail lines still hard-fails);
`finish` is the exception, since it never tests the `finished` flag and
prints any non-empty message again. -/
theorem no_output_after_finish_except_finish (p : Progress) (hf : p.finished = true)
    (message msg s color reset indent pre suf : String) (total i : Nat)
    (lines : List InfoLine) (b : Bool) (it : Item) (hit : p.items[i]? = some it) :
    (p.status message).2 = "" ∧
    (p.clear).2 = "" ∧
    (p.progress).2 = "" ∧
    (p.set_limit total).2 = "" ∧
    (p.item msg).2 = "" ∧
    Progress.draw_item p it pre suf = "" ∧
    Progress.update_item p i = "" ∧
    (Progress.delete_item p i).2 = "" ∧
    Progress.extra_info p i lines = some (p, "") ∧
    (Item.update p i s b).2 = "" ∧
    Item.hide p i = (if it.extra_info_lines = [] then some (p, "") else none) ∧
    (Item.finishedCall p i false).map Prod.snd = some "" ∧
    (Item.extra_info p i msg color reset indent).map Prod.snd = some "" ∧
    (Item.error_info p i s).map Prod.snd = some "" := by
  have hupd : ∀ (l : List Item) (j : Nat),
      Progress.update_item { p with items := l } j = "" := by
    intro l j
    unfold Progress.update_item
    cases ({ p with items := l } : Progress).items[j]? with
    | none => rfl
    | some jt => simp [Progress.draw_item, hf]
  refine ⟨status_snd_finished p hf message, by simp [Progress.clear, hf],
    status_snd_finished p hf _,
    by simp [Progress.set_limit, Progress.progress, Progress.status, hf], ?_,
    draw_item_finished p hf it pre suf, update_item_finished p hf i,
    by simp [Progress.delete_item, hf], by simp [Progress.extra_info, hf], ?_, ?_, ?_, ?_, ?_⟩
  · by_cases hm : msg = "" <;>
      simp [Progress.item, Progress.progress, Progress.status, Progress.clear,
        Progress.draw_item, hf, hm]
  · simp [Item.update, hit, hupd]
  · unfold Item.hide
    rw [hit]
    by_cases he : it.extra_info_lines = [] <;> simp [he, Progress.delete_item, hf]
  · unfold Item.finishedCall
    rw [hit]
    split <;> simp [hupd]
  · unfold Item.extra_info
    by_cases hl : mkInfoLines msg color reset indent = [] <;>
      simp [hl, Progress.extra_info, hf]
  · unfold Item.error_info Item.extra_info
    by_cases hl : mkInfoLines s t_red t_reset "    " = [] <;>
      simp [hl, Progress.extra_info, hf]

/-- Witness for `no_output_after_finish_except_finish` on a concrete
finished display holding one item. -/
theorem no_output_after_finish_except_finish_witness :
    pFinItem.finished = true ∧
    pFinItem.items[0]? = some ⟨"boo", 0, [], t_brown, t_reset, false, false, false⟩ ∧
    ((pFinItem.status "m").2 = "" ∧
      (pFinItem.clear).2 = "" ∧
      (pFinItem.progress).2 = "" ∧
      (pFinItem.set_limit 3).2 = "" ∧
      (pFinItem.item "n").2 = "" ∧
      Progress.draw_item pFinItem ⟨"boo", 0, [], t_brown, t_reset, false, false, false⟩
        "P" "Q" = "" ∧
      Progress.update_item pFinItem 0 = "" ∧
      (Progress.delete_item pFinItem 0).2 = "" ∧
      Progress.extra_info pFinItem 0 [] = some (pFinItem, "") ∧
      (Item.update pFinItem 0 "e" false).2 = "" ∧
      Item.hide pFinItem 0 =
        (if (⟨"boo", 0, [], t_brown, t_reset, false, false, false⟩ : Item).extra_info_lines = []
          then some (pFinItem, "") else none) ∧
      (Item.finishedCall pFinItem 0 false).map Prod.snd = some "" ∧
      (Item.extra_info pFinItem 0 "n" "" "" "  ").map Prod.snd = some "" ∧
      (Item.error_info pFinItem 0 "e").map Prod.snd = some "") :=
  ⟨rfl, rfl, no_output_after_finish_except_finish pFinItem rfl "m" "n" "e" "" "" "  " "P" "Q"
    3 0 [] false ⟨"boo", 0, [], t_brown, t_reset, false, false, false⟩ rfl⟩

lemma addLoop_card_of_some (L : Nat) :
    ∀ (waits : List (Finset Nat)) (jobs s : Finset Nat),
      addLoop L waits jobs = some s → s.card < L := by
  intro waits
  induction waits with
  | nil =>
    intro jobs s h
    unfold addLoop at h
    by_cases hc : jobs.card < L
    · rw [if_pos hc] at h
      cases h
      exact hc
    · rw [if_neg hc] at h
      cases h
  | cons d rest ih =>
    intro jobs s h
    unfold addLoop at h
    by_cases hc : jobs.card < L
    · rw [if_pos hc] at h
      cases h
      exact hc
    · rw [if_neg hc] at h
      exact ih _ _ h

/-- C7: the bounded-parallel scheduler never holds more than `L` in-flight
handles: whenever `add` completes, the resulting handle set has at most `L`
elements and contains the new task's handle; at capacity one wait result is
consumed and its completed handles removed before retrying, and below
capacity the new handle is added immediately. -/
theorem concurrent_add_bounded (L : Nat) (jobs : Finset Nat) (fresh : Nat)
    (waits : List (Finset Nat)) (d : Finset Nat) (rest : List (Finset Nat))
    (jobs' : Finset Nat)
    (h : ConcurrentJobQueue.add L jobs fresh waits = some jobs') :
    jobs'.card ≤ L ∧ fresh ∈ jobs' ∧
    (L ≤ jobs.card → ConcurrentJobQueue.add L jobs fresh (d :: rest)
        = ConcurrentJobQueue.add L (jobs \ d) fresh rest) ∧
    (jobs.card < L → jobs' = insert fresh jobs) := by
  obtain ⟨s, hs, rfl⟩ := Option.map_eq_some'.mp h
  have hcard := addLoop_card_of_some L waits jobs s hs
  refine ⟨?_, Finset.mem_insert_self fresh s, ?_, ?_⟩
  · calc (insert fresh s).card ≤ s.card + 1 := Finset.card_insert_le fresh s
      _ ≤ L := hcard
  · intro hcap
    have hstep : addLoop L (d :: rest) jobs = addLoop L rest (jobs \ d) := by
      conv_lhs => unfold addLoop
      rw [if_neg (by omega)]
    unfold ConcurrentJobQueue.add
    rw [hstep]
  · intro hlt
    have : addLoop L waits jobs = some jobs := by
      unfold addLoop
      cases waits <;> rw [if_pos hlt]
    rw [this] at hs
    cases hs
    rfl

/-- Witness for `concurrent_add_bounded`: limit 2, handles 0 and 1 in
flight, handle 0 completes, task with handle 2 gets submitted. -/
theorem concurrent_add_bounded_witness :
    ConcurrentJobQueue.add 2 {0, 1} 2 [{0}] = some (insert 2 ({0, 1} \ {0})) ∧
    ((insert 2 ({0, 1} \ {0}) : Finset Nat).card ≤ 2 ∧
      2 ∈ (insert 2 ({0, 1} \ {0}) : Finset Nat) ∧
      (2 ≤ ({0, 1} : Finset Nat).card → ConcurrentJobQueue.add 2 {0, 1} 2 [{0}]
          = ConcurrentJobQueue.add 2 ({0, 1} \ {0}) 2 []) ∧
      (({0, 1} : Finset Nat).card < 2 →
        (insert 2 ({0, 1} \ {0}) : Finset Nat) = insert 2 {0, 1})) :=
  ⟨by decide, concurrent_add_bounded 2 {0, 1} 2 [{0}] {0} []
    ((insert 2 ({0, 1} \ {0}) : Finset Nat)) (by decide)⟩

lemma drop_set_self (l : List Item) (i : Nat) (it it1 : Item)
    (h : l[i]? = some it) : (l.set i it1).drop i = it1 :: l.drop (i + 1) := by
  obtain ⟨hlt, hget⟩ := List.getElem?_eq_some_iff.mp h
  rw [List.drop_set, if_neg (by omega), Nat.sub_self,
    List.drop_eq_getElem_cons hlt, List.set_cons_zero]

lemma drop_set_succ (l : List Item) (i : Nat) (it1 : Item) :
    (l.set i it1).drop (i + 1) = l.drop (i + 1) := by
  rw [List.drop_set, if_pos (by omega)]

/-- C3 amended: `hide()` on an item with zero detail lines sets
`hidden = true`, emits cursor-up over the rows below the item plus one,
deletes exactly one row, then emits cursor-down over the rows below only
when at least one such row exists (for the bottom item no cursor-down is
emitted), and reduces the total printed line count by exactly one; `hide()`
on an item with one or more detail lines is a hard assertion failure that
leaves all state unchanged. -/
theorem hide_zero_detail_succeeds_else_refused (p : Progress) (i : Nat) (it : Item)
    (h : p.items[i]? = some it) (hidx : it.idx = i) (hfin : p.finished = false)
    (hhid : it.hidden = false) :
    (it.extra_info_lines = [] →
      Item.hide p i = some ({ p with items := p.items.set i { it with hidden := true } },
        t_cursor_up (sumHeightsFrom p (i + 1) + 1) ++ t_delete_lines 1
          ++ (if sumHeightsFrom p (i + 1) = 0 then ""
              else t_cursor_down (sumHeightsFrom p (i + 1)))) ∧
      totalHeights { p with items := p.items.set i { it with hidden := true } } + 1
        = totalHeights p) ∧
    (it.extra_info_lines ≠ [] → Item.hide p i = none) := by
  obtain ⟨hlt, hget⟩ := List.getElem?_eq_some_iff.mp h
  subst hidx
  constructor
  · intro he
    have hn : sumHeightsFrom { p with items := p.items.set it.idx { it with hidden := true } }
          it.idx = sumHeightsFrom p (it.idx + 1) := by
      unfold sumHeightsFrom
      simp only
      rw [drop_set_self p.items it.idx it _ h, List.map_cons, List.sum_cons]
      simp [Item.height, he]
    have hdel : Progress.delete_item p it.idx
        = ({ p with items := p.items.set it.idx { it with hidden := true } },
            t_cursor_up (sumHeightsFrom p (it.idx + 1) + 1) ++ t_delete_lines 1
              ++ (if sumHeightsFrom p (it.idx + 1) = 0 then ""
                  else t_cursor_down (sumHeightsFrom p (it.idx + 1)))) := by
      unfold Progress.delete_item
      rw [if_neg (by simp [hfin])]
      simp only [h]
      rw [if_neg (by simp [hhid])]
      simp only [hn]
    constructor
    · simp only [Item.hide, h]
      rw [if_pos he, hdel]
    · have hsplit : p.items
          = p.items.take it.idx ++ it :: p.items.drop (it.idx + 1) := by
        conv_lhs => rw [← List.take_append_drop it.idx p.items]
        rw [List.drop_eq_getElem_cons hlt, hget]
      have hsetsplit : p.items.set it.idx { it with hidden := true }
          = p.items.take it.idx ++ { it with hidden := true } :: p.items.drop (it.idx + 1) := by
        rw [List.set_eq_take_append_cons_drop, if_pos hlt]
      unfold totalHeights
      simp only [hsetsplit]
      conv_rhs => rw [hsplit]
      simp only [List.map_append, List.sum_append, List.map_cons, List.sum_cons]
      have h1 : Item.height { it with hidden := true } = 0 := by
        simp [Item.height, he]
      have h2 : Item.height it = 1 := by
        simp [Item.height, he, hhid]
      rw [h1, h2]
      omega
  · intro hne
    simp only [Item.hide, h]
    rw [if_neg hne]

/-- Concrete display with two items `a` and `b`, used by witnesses. -/
def pTwo : Progress := ((Progress.init.item "a").1.item "b").1

/-- C3 counterexample: hiding the bottom item (no printed rows below it)
emits cursor-up and delete-line but no cursor-down at all — the transcript
contains no `B` character, although every cursor-down escape `ESC [ n B`
contains one.  The claim's unconditional "cursor-up, a delete of exactly
one terminal row, and cursor-down" is therefore false for the last item. -/
theorem hide_last_item_no_cursor_down_cex :
    (Item.hide pOneItem 0).map Prod.snd = some "\x1b[1A\x1b[1M" ∧
    ("\x1b[1A\x1b[1M".data.contains 'B') = false ∧
    ((t_cursor_down 1).data.contains 'B') = true :=
  ⟨rfl, rfl, rfl⟩

/-- Concrete first item of `pTwo`, used by witnesses. -/
def itA : Item := ⟨"a", 0, [], t_brown, t_reset, false, false, false⟩

/-- The hidden version of `itA`. -/
def itAHidden : Item := { itA with hidden := true }

/-- Witness for `hide_zero_detail_succeeds_else_refused` hiding the first
of two items (here a cursor-down is emitted since one row lies below). -/
theorem hide_zero_detail_succeeds_else_refused_witness :
    pTwo.items[0]? = some itA ∧ itA.idx = 0 ∧ pTwo.finished = false ∧
    itA.hidden = false ∧
    ((itA.extra_info_lines = [] →
      Item.hide pTwo 0 = some ({ pTwo with items := pTwo.items.set 0 itAHidden },
        t_cursor_up (sumHeightsFrom pTwo (0 + 1) + 1) ++ t_delete_lines 1
          ++ (if sumHeightsFrom pTwo (0 + 1) = 0 then ""
              else t_cursor_down (sumHeightsFrom pTwo (0 + 1)))) ∧
      totalHeights { pTwo with items := pTwo.items.set 0 itAHidden } + 1
        = totalHeights pTwo) ∧
    (itA.extra_info_lines ≠ [] → Item.hide pTwo 0 = none)) :=
  ⟨rfl, rfl, rfl, rfl,
    hide_zero_detail_succeeds_else_refused pTwo 0 itA rfl rfl rfl rfl⟩

/-- C4 counterexample: `update` on a hidden item is not refused — it
produces no output but still mutates the item's label (`boo` becomes
`boo oops`), contradicting "changes no item state". -/
theorem update_on_hidden_mutates_cex :
    (pHidden.items[0]?).map Item.hidden = some true ∧
    (Item.update pHidden 0 " oops" false).2 = "" ∧
    ((Item.update pHidden 0 " oops" false).1.items[0]?).map Item.msg = some "boo oops" ∧
    (pHidden.items[0]?).map Item.msg = some "boo" :=
  ⟨rfl, rfl, rfl, rfl⟩

/-- C4 amended: on a hidden item, `update` produces no output but still
mutates the item's state (the suffix is appended to the label), while
`extra_info` with at least one line is a hard assertion failure that
changes no state and produces no output. -/
theorem hidden_item_update_mutates_extra_info_refused (p : Progress) (i : Nat)
    (it : Item) (s msg color reset indent : String) (b : Bool)
    (h : p.items[i]? = some it) (hhid : it.hidden = true) (hfin : p.finished = false) :
    (Item.update p i s b).2 = "" ∧
    ((Item.update p i s b).1.items[i]?).map Item.msg = some (it.msg ++ s) ∧
    (pySplitlines msg ≠ [] → Item.extra_info p i msg color reset indent = none) := by
  have hlt : i < p.items.length := (List.getElem?_eq_some_iff.mp h).1
  refine ⟨?_, ?_, ?_⟩
  · simp only [Item.update, h]
    unfold Progress.update_item
    rw [List.getElem?_set_self (by simpa using hlt)]
    unfold Progress.draw_item
    cases b <;> by_cases hfl : it.failed <;> simp [hhid, hfl]
  · simp only [Item.update, h]
    rw [List.getElem?_set_self (by simpa using hlt)]
    cases b <;> by_cases hfl : it.failed <;> simp [hfl]
  · intro hl
    unfold Item.extra_info
    rw [if_neg (by simp [mkInfoLines, hl])]
    unfold Progress.extra_info
    rw [if_neg (by simp [hfin])]
    simp only [h]
    rw [if_pos (by simp [hhid])]

/-- Witness for `hidden_item_update_mutates_extra_info_refused` on the
concrete hidden `boo` item. -/
theorem hidden_item_update_mutates_extra_info_refused_witness :
    pHidden.items[0]? = some ⟨"boo", 0, [], t_brown, t_reset, false, false, true⟩ ∧
    (⟨"boo", 0, [], t_brown, t_reset, false, false, true⟩ : Item).hidden = true ∧
    pHidden.finished = false ∧
    ((Item.update pHidden 0 " oops" false).2 = "" ∧
      ((Item.update pHidden 0 " oops" false).1.items[0]?).map Item.msg
        = some ((⟨"boo", 0, [], t_brown, t_reset, false, false, true⟩ : Item).msg ++ " oops") ∧
      (pySplitlines "x" ≠ [] → Item.extra_info pHidden 0 "x" "" "" "    " = none)) :=
  ⟨rfl, rfl, rfl,
    hidden_item_update_mutates_extra_info_refused pHidden 0
      ⟨"boo", 0, [], t_brown, t_reset, false, false, true⟩ " oops" "x" "" "" "    " false
      rfl rfl rfl⟩

/-- A sequence of `update` calls on the item at index `i`, keeping only the
resulting state. -/
def applyUpdates (p : Progress) (i : Nat) (us : List (String × Bool)) : Progress :=
  us.foldl (fun q u => (Item.update q i u.1 u.2).1) p

lemma update_item_state (p : Progress) (i : Nat) (it : Item) (s : String) (b : Bool)
    (h : p.items[i]? = some it) :
    ∃ it', (Item.update p i s b).1.items[i]? = some it' ∧
      it'.msg = it.msg ++ s ∧ it'.failed = (b || it.failed) ∧
      it'.color = (if b then t_red else if it.failed then it.color else t_green) ∧
      it'.updated = true := by
  have hlt : i < p.items.length := (List.getElem?_eq_some_iff.mp h).1
  simp only [Item.update, h]
  cases b <;> by_cases hfl : it.failed <;>
    simp [List.getElem?_set_self hlt, hfl]

lemma applyUpdates_keeps_red (i : Nat) (us : List (String × Bool)) :
    ∀ (p : Progress) (it : Item), p.items[i]? = some it →
      it.failed = true → it.color = t_red →
      ∃ it', (applyUpdates p i us).items[i]? = some it' ∧
        it'.failed = true ∧ it'.color = t_red := by
  induction us with
  | nil =>
    intro p it h hf hc
    exact ⟨it, h, hf, hc⟩
  | cons u rest ih =>
    intro p it h hf hc
    obtain ⟨it', h', hmsg, hfail, hcol, _⟩ := update_item_state p i it u.1 u.2 h
    have hfail' : it'.failed = true := by
      rw [hfail, hf, Bool.or_true]
    have hcol' : it'.color = t_red := by
      rw [hcol, hf, hc]
      cases u.2 <;> simp
    exact ih _ it' h' hfail' hcol'

/-- C6: failure is sticky.  An `update` with `failed=true` latches the
failure flag and the red color; any following sequence of `update` calls
with `failed=false` leaves the color red; an update with `failed=false` on
a never-failed item sets the green success color; and every update appends
its suffix to the label. -/
theorem update_failure_sticky (p : Progress) (i : Nat) (it : Item) (s : String)
    (b : Bool) (us : List (String × Bool)) (h : p.items[i]? = some it)
    (_hus : ∀ u ∈ us, u.2 = false) :
    ((Item.update p i s true).1.items[i]?).map Item.failed = some true ∧
    ((Item.update p i s true).1.items[i]?).map Item.color = some t_red ∧
    (it.failed = false →
      ((Item.update p i s false).1.items[i]?).map Item.color = some t_green) ∧
    ((Item.update p i s b).1.items[i]?).map Item.msg = some (it.msg ++ s) ∧
    (((applyUpdates (Item.update p i s true).1 i us).items[i]?).map Item.failed
        = some true ∧
      ((applyUpdates (Item.update p i s true).1 i us).items[i]?).map Item.color
        = some t_red) := by
  obtain ⟨itT, hT, hTmsg, hTfail, hTcol, _⟩ := update_item_state p i it s true h
  obtain ⟨itB, hB, hBmsg, hBfail, hBcol, _⟩ := update_item_state p i it s b h
  have hTfail' : itT.failed = true := by rw [hTfail]; rfl
  have hTcol' : itT.color = t_red := by rw [hTcol]; rfl
  obtain ⟨itR, hR, hRfail, hRcol⟩ :=
    applyUpdates_keeps_red i us (Item.update p i s true).1 itT hT hTfail' hTcol'
  refine ⟨by rw [hT]; simp [hTfail'], by rw [hT]; simp [hTcol'], ?_, ?_, ?_⟩
  · intro hnf
    obtain ⟨itF, hF, hFmsg, hFfail, hFcol, _⟩ := update_item_state p i it s false h
    rw [hF]
    simp [hFcol, hnf]
  · rw [hB]
    simp [hBmsg]
  · exact ⟨by rw [hR]; simp [hRfail], by rw [hR]; simp [hRcol]⟩

/-- Witness for `update_failure_sticky`: item `a`, suffix ` x`, then two
non-failed updates. -/
theorem update_failure_sticky_witness :
    pTwo.items[0]? = some itA ∧
    (∀ u ∈ [(" y", false), (" z", false)], u.2 = false) ∧
    (((Item.update pTwo 0 " x" true).1.items[0]?).map Item.failed = some true ∧
      ((Item.update pTwo 0 " x" true).1.items[0]?).map Item.color = some t_red ∧
      (itA.failed = false →
        ((Item.update pTwo 0 " x" false).1.items[0]?).map Item.color = some t_green) ∧
      ((Item.update pTwo 0 " x" false).1.items[0]?).map Item.msg
        = some (itA.msg ++ " x") ∧
      (((applyUpdates (Item.update pTwo 0 " x" true).1 0
            [(" y", false), (" z", false)]).items[0]?).map Item.failed = some true ∧
        ((applyUpdates (Item.update pTwo 0 " x" true).1 0
            [(" y", false), (" z", false)]).items[0]?).map Item.color = some t_red)) :=
  ⟨rfl, by decide,
    update_failure_sticky pTwo 0 itA " x" false [(" y", false), (" z", false)] rfl
      (by decide)⟩

lemma addEvLoop_interrupted_subset (L : Nat) :
    ∀ (events : List AddEvent) (jobs js : Finset Nat),
      addEvLoop L events jobs = some (LoopExit.interrupted js) → js ⊆ jobs := by
  intro events
  induction events with
  | nil =>
    intro jobs js h
    unfold addEvLoop at h
    by_cases hc : jobs.card < L
    · rw [if_pos hc] at h
      cases h
    · rw [if_neg hc] at h
      cases h
  | cons e rest ih =>
    intro jobs js h
    unfold addEvLoop at h
    by_cases hc : jobs.card < L
    · rw [if_pos hc] at h
      cases h
    · rw [if_neg hc] at h
      cases e with
      | interrupt =>
        cases h
        exact Finset.Subset.refl _
      | completes d =>
        exact (ih _ _ h).trans (Finset.sdiff_subset)

/-- C8: a `KeyboardInterrupt` arriving while `ConcurrentJobQueue.add` is
blocked makes the `except` clause mark the task being submitted as aborted
(its item's label gains ` (aborted)` — a label distinct from the ordinary
` (failed)` marking — and its failure flag is latched) and re-raises, so
the interruption propagates to the caller; the handles already in flight
are left untouched (no handle is cancelled, the new handle is never
added). -/
theorem interrupted_add_aborts_task (L : Nat) (jobs js : Finset Nat) (fresh : Nat)
    (events : List AddEvent) (p : Progress) (i : Nat) (it : Item)
    (h : addEvLoop L events jobs = some (LoopExit.interrupted js))
    (hit : p.items[i]? = some it) (hfresh : fresh ∉ jobs) :
    ConcurrentJobQueue.addTask L jobs fresh events p i
        = some (js, (RepoTask.aborted p i).1, (RepoTask.aborted p i).2, true) ∧
    js ⊆ jobs ∧ fresh ∉ js ∧
    ((RepoTask.aborted p i).1.items[i]?).map Item.msg = some (it.msg ++ " (aborted)") ∧
    ((RepoTask.aborted p i).1.items[i]?).map Item.failed = some true ∧
    " (aborted)" ≠ check_call_failed_label := by
  have hsub := addEvLoop_interrupted_subset L events jobs js h
  have hlt : i < p.items.length := (List.getElem?_eq_some_iff.mp hit).1
  obtain ⟨it1, h1, hmsg1, hfail1, _, hupd1⟩ :=
    update_item_state p i it " (aborted)" true hit
  have hlt1 : i < (Item.update p i " (aborted)" true).1.items.length := by
    simp only [Item.update, hit]
    simpa using hlt
  have hcond : (!it1.updated && !it1.failed) = false := by
    rw [hupd1]
    rfl
  have habort : ((RepoTask.aborted p i).1.items[i]?) = some it1 := by
    unfold RepoTask.aborted
    simp only [Item.finishedCall, h1, hcond]
    simp [List.getElem?_set_self hlt1]
  refine ⟨?_, hsub, fun hm => hfresh (hsub hm), ?_, ?_, by decide⟩
  · unfold ConcurrentJobQueue.addTask
    rw [h]
  · rw [habort]
    simp [hmsg1]
  · rw [habort]
    simp [hfail1]

/-- Witness for `interrupted_add_aborts_task`: limit 2, handles 0 and 1 in
flight, a `KeyboardInterrupt` arrives while blocked adding the task whose
item is the `boo` item. -/
theorem interrupted_add_aborts_task_witness :
    addEvLoop 2 [AddEvent.interrupt] {0, 1} = some (LoopExit.interrupted {0, 1}) ∧
    pOneItem.items[0]? = some ⟨"boo", 0, [], t_brown, t_reset, false, false, false⟩ ∧
    2 ∉ ({0, 1} : Finset Nat) ∧
    (ConcurrentJobQueue.addTask 2 {0, 1} 2 [AddEvent.interrupt] pOneItem 0
        = some ({0, 1}, (RepoTask.aborted pOneItem 0).1,
            (RepoTask.aborted pOneItem 0).2, true) ∧
      ({0, 1} : Finset Nat) ⊆ {0, 1} ∧ 2 ∉ ({0, 1} : Finset Nat) ∧
      ((RepoTask.aborted pOneItem 0).1.items[0]?).map Item.msg
        = some ((⟨"boo", 0, [], t_brown, t_reset, false, false, false⟩ : Item).msg
            ++ " (aborted)") ∧
      ((RepoTask.aborted pOneItem 0).1.items[0]?).map Item.failed = some true ∧
      " (aborted)" ≠ check_call_failed_label) :=
  ⟨by decide, rfl, by decide,
    interrupted_add_aborts_task 2 {0, 1} {0, 1} 2 [AddEvent.interrupt] pOneItem 0
      ⟨"boo", 0, [], t_brown, t_reset, false, false, false⟩ (by decide) rfl (by decide)⟩

lemma progress_fst_items (q : Progress) : (Progress.progress q).1.items = q.items := by
  unfold Progress.progress Progress.status Progress.clear
  split_ifs <;> simp

/-- C1: `extraInfo` on a visible item whose text splits into `N ≥ 1` lines
appends the `N` indented lines to the item's detail list, and its output is
exactly: a cursor-up over the rows occupied by the items after this one
(omitted when there are none, i.e. the cursor already rests directly below
this item's rows), an insert-lines primitive for exactly `N` rows, the `N`
rendered lines, a redraw of every item with a greater index (each followed
by its own detail lines), and finally a redraw of the status/progress
line. -/
theorem extra_info_appends_inserts_redraws (p : Progress) (i : Nat) (it : Item)
    (msg color reset indent : String) (N : Nat)
    (hfin : p.finished = false) (hit : p.items[i]? = some it) (hidx : it.idx = i)
    (hhid : it.hidden = false) (hN : (pySplitlines msg).length = N) (hN1 : 1 ≤ N) :
    Item.extra_info p i msg color reset indent =
      some (((extraInfoState p i it (mkInfoLines msg color reset indent)).progress).1,
        (if sumHeightsFrom (extraInfoState p i it (mkInfoLines msg color reset indent))
              (i + 1) = 0 then ""
          else t_cursor_up (sumHeightsFrom
            (extraInfoState p i it (mkInfoLines msg color reset indent)) (i + 1)))
        ++ t_insert_lines N
        ++ String.join ((mkInfoLines msg color reset indent).map renderInfoLine)
        ++ redrawItemsAfter (extraInfoState p i it (mkInfoLines msg color reset indent)) i
        ++ ((extraInfoState p i it (mkInfoLines msg color reset indent)).progress).2) ∧
    (((extraInfoState p i it (mkInfoLines msg color reset indent)).progress).1.items[i]?).map
        Item.extra_info_lines
      = some (it.extra_info_lines ++ mkInfoLines msg color reset indent) := by
  subst hidx
  have hlt : it.idx < p.items.length := (List.getElem?_eq_some_iff.mp hit).1
  have hLlen : (mkInfoLines msg color reset indent).length = N := by
    simp [mkInfoLines, hN]
  have hLne : mkInfoLines msg color reset indent ≠ [] := by
    intro hcon
    rw [hcon] at hLlen
    simp at hLlen
    omega
  constructor
  · unfold Item.extra_info
    rw [if_neg hLne]
    unfold Progress.extra_info
    rw [if_neg (by simp [hfin])]
    simp only [hit]
    rw [if_neg (by simp [hhid])]
    simp only [extraInfoState, redrawItemsAfter, renderItemWithInfo, hLlen]
    rfl
  · rw [progress_fst_items]
    unfold extraInfoState
    simp only
    rw [List.getElem?_set_self (by simpa using hlt)]
    simp

/-- Witness for `extra_info_appends_inserts_redraws`: two-line extra info
on the first of two items. -/
theorem extra_info_appends_inserts_redraws_witness :
    pTwo.finished = false ∧ pTwo.items[0]? = some itA ∧ itA.idx = 0 ∧
    itA.hidden = false ∧ (pySplitlines "hi\nho").length = 2 ∧ 1 ≤ 2 ∧
    (Item.extra_info pTwo 0 "hi\nho" "" "" "    " =
      some (((extraInfoState pTwo 0 itA (mkInfoLines "hi\nho" "" "" "    ")).progress).1,
        (if sumHeightsFrom (extraInfoState pTwo 0 itA (mkInfoLines "hi\nho" "" "" "    "))
              (0 + 1) = 0 then ""
          else t_cursor_up (sumHeightsFrom
            (extraInfoState pTwo 0 itA (mkInfoLines "hi\nho" "" "" "    ")) (0 + 1)))
        ++ t_insert_lines 2
        ++ String.join ((mkInfoLines "hi\nho" "" "" "    ").map renderInfoLine)
        ++ redrawItemsAfter (extraInfoState pTwo 0 itA (mkInfoLines "hi\nho" "" "" "    ")) 0
        ++ ((extraInfoState pTwo 0 itA (mkInfoLines "hi\nho" "" "" "    ")).progress).2) ∧
    (((extraInfoState pTwo 0 itA
          (mkInfoLines "hi\nho" "" "" "    ")).progress).1.items[0]?).map
        Item.extra_info_lines
      = some (itA.extra_info_lines ++ mkInfoLines "hi\nho" "" "" "    ")) :=
  ⟨rfl, rfl, rfl, rfl, rfl, by omega,
    extra_info_appends_inserts_redraws pTwo 0 itA "hi\nho" "" "" "    " 2
      rfl rfl rfl rfl rfl (by omega)⟩
